import Mathlib

/-!
# Verification of the chromaprint C API layer (`src/chromaprint.cpp`)

This development embeds the C API layer of chromaprint (`chromaprint.cpp`)
in Lean 4 and proves or refutes the specified properties of the codec, the
similarity digest, the fingerprinter session state machine and the matcher
session.

Only `chromaprint.cpp` is available as source; the components it calls
(`CompressFingerprint`, `DecompressFingerprint`, `Base64Encode`,
`Base64Decode`, `SimHash`, `Fingerprinter`, `FingerprintMatcher`) are
modelled from the specification, each with a doc comment saying so.
Machine integers are modelled as `Nat`/`Int`; byte strings as `List Nat`
(each element a byte value); out-parameters as `Option` results; a C call
that mutates a context returns the new context value together with the
`int` return code.
-/

namespace chromaprint

/-! ## Base64 (modelled from the spec)

The spec describes the text transport as a padding-tolerant, URL-safe
base64 variant: encode always emits padding, decode accepts input with or
without padding, and the transform satisfies `Decode(Encode(bytes)) == bytes`.
-/

/-- Modelled from the spec: the URL-safe base64 alphabet (`-` and `_`
substituted for `+` and `/`).  Maps a sextet value `0..63` to its ASCII
byte. -/
def sextetByte (n : Nat) : Nat :=
  if n < 26 then 65 + n
  else if n < 52 then 97 + (n - 26)
  else if n < 62 then 48 + (n - 52)
  else if n = 62 then 45
  else 95

/-- Modelled from the spec: inverse of the URL-safe base64 alphabet.
Bytes outside the alphabet (including the padding byte `=` = 61) map to
`none` and are skipped by the decoder, which makes the decoder tolerate
absent padding as the spec requires. -/
def byteSextet (c : Nat) : Option Nat :=
  if 65 ≤ c ∧ c ≤ 90 then some (c - 65)
  else if 97 ≤ c ∧ c ≤ 122 then some (26 + (c - 97))
  else if 48 ≤ c ∧ c ≤ 57 then some (52 + (c - 48))
  else if c = 45 then some 62
  else if c = 95 then some 63
  else none

/-- Modelled from the spec: group bytes into blocks of three and split each
block into four sextets (standard base64 bit layout); a trailing block of
one or two bytes yields two or three sextets. -/
def bytesToSextets : List Nat → List Nat
  | [] => []
  | [b1] => [b1 / 4, b1 % 4 * 16]
  | [b1, b2] => [b1 / 4, b1 % 4 * 16 + b2 / 16, b2 % 16 * 4]
  | b1 :: b2 :: b3 :: rest =>
      b1 / 4 :: (b1 % 4 * 16 + b2 / 16) :: (b2 % 16 * 4 + b3 / 64) :: b3 % 64 ::
        bytesToSextets rest

/-- Modelled from the spec: reassemble bytes from sextets, the inverse
grouping of `bytesToSextets`.  A trailing group of two or three sextets
yields one or two bytes; a lone trailing sextet carries no complete byte. -/
def sextetsToBytes : List Nat → List Nat
  | s1 :: s2 :: s3 :: s4 :: rest =>
      (s1 * 4 + s2 / 16) :: (s2 % 16 * 16 + s3 / 4) :: (s3 % 4 * 64 + s4) ::
        sextetsToBytes rest
  | [s1, s2] => [s1 * 4 + s2 / 16]
  | [s1, s2, s3] => [s1 * 4 + s2 / 16, s2 % 16 * 16 + s3 / 4]
  | _ => []

/-- Modelled from the spec: base64 encoding of a byte string; always emits
`=` (byte 61) padding. -/
def Base64Encode (bytes : List Nat) : List Nat :=
  (bytesToSextets bytes).map sextetByte ++
    (if bytes.length % 3 = 1 then [61, 61]
     else if bytes.length % 3 = 2 then [61] else [])

/-- Modelled from the spec: base64 decoding of a byte string; bytes outside
the alphabet (padding included) are skipped. -/
def Base64Decode (s : List Nat) : List Nat :=
  sextetsToBytes (s.filterMap byteSextet)

theorem byteSextet_sextetByte {n : Nat} (h : n < 64) :
    byteSextet (sextetByte n) = some n := by
  interval_cases n <;> decide

theorem sextetsToBytes_bytesToSextets (l : List Nat) (h : ∀ b ∈ l, b < 256) :
    sextetsToBytes (bytesToSextets l) = l := by
  induction l using bytesToSextets.induct with
  | case1 => rfl
  | case2 b1 =>
      have hb1 : b1 < 256 := h b1 (by simp)
      simp only [bytesToSextets, sextetsToBytes, List.cons.injEq, and_true]
      omega
  | case3 b1 b2 =>
      have hb1 : b1 < 256 := h b1 (by simp)
      have hb2 : b2 < 256 := h b2 (by simp)
      simp only [bytesToSextets, sextetsToBytes, List.cons.injEq, and_true]
      omega
  | case4 b1 b2 b3 rest ih =>
      have hb1 : b1 < 256 := h b1 (by simp)
      have hb2 : b2 < 256 := h b2 (by simp)
      have hb3 : b3 < 256 := h b3 (by simp)
      have hrest : ∀ b ∈ rest, b < 256 := fun b hb => h b (by simp [hb])
      simp only [bytesToSextets, sextetsToBytes, ih hrest]
      refine List.cons_eq_cons.mpr ⟨by omega, ?_⟩
      refine List.cons_eq_cons.mpr ⟨by omega, ?_⟩
      refine List.cons_eq_cons.mpr ⟨by omega, rfl⟩

theorem bytesToSextets_lt (l : List Nat) (h : ∀ b ∈ l, b < 256) :
    ∀ s ∈ bytesToSextets l, s < 64 := by
  induction l using bytesToSextets.induct with
  | case1 => simp [bytesToSextets]
  | case2 b1 =>
      have hb1 : b1 < 256 := h b1 (by simp)
      simp only [bytesToSextets, List.mem_cons, List.mem_singleton]
      rintro s (rfl | rfl | hs) <;> first | omega | simp at hs
  | case3 b1 b2 =>
      have hb1 : b1 < 256 := h b1 (by simp)
      have hb2 : b2 < 256 := h b2 (by simp)
      simp only [bytesToSextets, List.mem_cons, List.mem_singleton]
      rintro s (rfl | rfl | rfl | hs) <;> first | omega | simp at hs
  | case4 b1 b2 b3 rest ih =>
      have hb1 : b1 < 256 := h b1 (by simp)
      have hb2 : b2 < 256 := h b2 (by simp)
      have hb3 : b3 < 256 := h b3 (by simp)
      have hrest : ∀ b ∈ rest, b < 256 := fun b hb => h b (by simp [hb])
      simp only [bytesToSextets, List.mem_cons]
      rintro s (rfl | rfl | rfl | rfl | hs)
      · omega
      · omega
      · omega
      · omega
      · exact ih hrest s hs

theorem filterMap_byteSextet_map_sextetByte (sx : List Nat)
    (h : ∀ s ∈ sx, s < 64) :
    (sx.map sextetByte).filterMap byteSextet = sx := by
  induction sx with
  | nil => rfl
  | cons s rest ih =>
      have hs : s < 64 := h s (by simp)
      have hrest : ∀ x ∈ rest, x < 64 := fun x hx => h x (by simp [hx])
      simp [List.filterMap_cons, byteSextet_sextetByte hs, ih hrest]

theorem Base64Decode_Base64Encode (bytes : List Nat) (h : ∀ b ∈ bytes, b < 256) :
    Base64Decode (Base64Encode bytes) = bytes := by
  unfold Base64Decode Base64Encode
  rw [List.filterMap_append]
  have hpad : (if bytes.length % 3 = 1 then [61, 61]
      else if bytes.length % 3 = 2 then [61] else ([] : List Nat)).filterMap
        byteSextet = [] := by
    split <;> first | rfl | split <;> rfl
  rw [hpad, List.append_nil,
    filterMap_byteSextet_map_sextetByte _ (bytesToSextets_lt bytes h),
    sextetsToBytes_bytesToSextets bytes h]

/-! ## Codec (modelled from the spec)

The spec describes compression as: XOR each subfingerprint against its
predecessor (the first against zero), encode each delta with a
byte-oriented variable-length scheme, and prepend the 1-byte AlgorithmId.
Decompression reads the AlgorithmId byte, iteratively decodes the deltas
(every read bounds-checked, truncated input is a CorruptDataError) and
XOR-accumulates to recover the sequence.
-/

/-- Modelled from the spec: byte-oriented variable-length encoding of one
delta value — seven value bits per byte, least significant first, with the
high bit of a byte marking continuation.  Structurally recursive on a fuel
argument so that it evaluates inside the kernel; the fuel never runs out
when it starts at the encoded value itself. -/
def varintEncodeAux : Nat → Nat → List Nat
  | 0, n => [n % 128]
  | fuel + 1, n =>
    if n < 128 then [n] else (128 + n % 128) :: varintEncodeAux fuel (n / 128)

/-- Modelled from the spec: variable-length encoding of one delta value. -/
def varintEncode (n : Nat) : List Nat :=
  varintEncodeAux n n

/-- Modelled from the spec: decode one variable-length delta from the front
of the stream, returning the value and the remaining bytes; `none` on a
truncated code. -/
def varintDecode : List Nat → Option (Nat × List Nat)
  | [] => none
  | b :: rest =>
    if b < 128 then some (b, rest)
    else
      match varintDecode rest with
      | some (m, rest2) => some (b - 128 + 128 * m, rest2)
      | none => none

/-- Modelled from the spec: concatenate the variable-length encodings of a
delta sequence. -/
def encodeDeltas : List Nat → List Nat
  | [] => []
  | d :: rest => varintEncode d ++ encodeDeltas rest

/-- Modelled from the spec: decode the whole delta stream; the fuel bounds
the number of decoded values by the declared stream length, so every read
is bounds-checked and a truncated code yields `none` (CorruptDataError). -/
def decodeDeltasFuel : Nat → List Nat → Option (List Nat)
  | _, [] => some []
  | 0, _ :: _ => none
  | fuel + 1, b :: rest =>
    match varintDecode (b :: rest) with
    | some (d, rest2) =>
      match decodeDeltasFuel fuel rest2 with
      | some ds => some (d :: ds)
      | none => none
    | none => none

/-- Modelled from the spec: successive XOR deltas of a sequence against the
running predecessor. -/
def xorDeltas : Nat → List Nat → List Nat
  | _, [] => []
  | prev, x :: rest => (prev ^^^ x) :: xorDeltas x rest

/-- Modelled from the spec: XOR-accumulate a delta stream back into the
original sequence. -/
def undelta : Nat → List Nat → List Nat
  | _, [] => []
  | prev, d :: rest => (prev ^^^ d) :: undelta (prev ^^^ d) rest

/-- Modelled from the spec: `CompressFingerprint` — the compact byte form,
a 1-byte AlgorithmId followed by the variable-length XOR-delta stream. -/
def CompressFingerprint (fp : List Nat) (algorithm : Nat) : List Nat :=
  algorithm % 256 :: encodeDeltas (xorDeltas 0 fp)

/-- Modelled from the spec: `DecompressFingerprint` — read the AlgorithmId
byte, decode the delta stream, XOR-accumulate; `none` on empty or
malformed input (CorruptDataError). -/
def DecompressFingerprint (bytes : List Nat) : Option (List Nat × Nat) :=
  match bytes with
  | [] => none
  | a :: rest =>
    match decodeDeltasFuel rest.length rest with
    | some ds => some (undelta 0 ds, a)
    | none => none

/-- `chromaprint_encode_fingerprint` (chromaprint.cpp:134-145): compress the
raw subfingerprint array, optionally base64-encode the result. -/
def chromaprint_encode_fingerprint (fp : List Nat) (algorithm : Nat)
    (base64 : Bool) : List Nat :=
  let encoded := CompressFingerprint fp algorithm
  if base64 then Base64Encode encoded else encoded

/-- `chromaprint_decode_fingerprint` (chromaprint.cpp:147-158): optionally
base64-decode, then decompress, returning the sequence and its algorithm
id. -/
def chromaprint_decode_fingerprint (encoded_fp : List Nat) (base64 : Bool) :
    Option (List Nat × Nat) :=
  let encoded := if base64 then Base64Decode encoded_fp else encoded_fp
  DecompressFingerprint encoded

theorem varintEncodeAux_ne_nil (fuel n : Nat) : varintEncodeAux fuel n ≠ [] := by
  cases fuel with
  | zero => simp [varintEncodeAux]
  | succ f =>
      simp only [varintEncodeAux]
      split <;> simp

theorem varintEncode_ne_nil (n : Nat) : varintEncode n ≠ [] :=
  varintEncodeAux_ne_nil n n

theorem varintEncodeAux_lt (fuel : Nat) :
    ∀ n, ∀ b ∈ varintEncodeAux fuel n, b < 256 := by
  induction fuel with
  | zero =>
      intro n b hb
      simp only [varintEncodeAux, List.mem_singleton] at hb
      omega
  | succ f ih =>
      intro n b hb
      simp only [varintEncodeAux] at hb
      by_cases h : n < 128
      · rw [if_pos h] at hb
        simp only [List.mem_singleton] at hb
        omega
      · rw [if_neg h] at hb
        rcases List.mem_cons.mp hb with rfl | hb2
        · omega
        · exact ih _ b hb2

theorem varintEncode_lt (n : Nat) : ∀ b ∈ varintEncode n, b < 256 :=
  varintEncodeAux_lt n n

theorem varintDecode_varintEncodeAux (fuel : Nat) :
    ∀ n, n < 128 ∨ n ≤ fuel → ∀ rest : List Nat,
      varintDecode (varintEncodeAux fuel n ++ rest) = some (n, rest) := by
  induction fuel with
  | zero =>
      intro n hn rest
      have hn2 : n < 128 := by omega
      simp [varintEncodeAux, Nat.mod_eq_of_lt hn2, varintDecode, hn2]
  | succ f ih =>
      intro n hn rest
      by_cases h : n < 128
      · simp [varintEncodeAux, if_pos h, varintDecode, h]
      · have hfuel : n / 128 < 128 ∨ n / 128 ≤ f := by
          right
          have := Nat.div_lt_self (by omega : 0 < n) (by omega : 1 < 128)
          omega
        simp only [varintEncodeAux, if_neg h, List.cons_append, varintDecode,
          if_neg (by omega : ¬ 128 + n % 128 < 128), List.append_eq]
        rw [ih (n / 128) hfuel rest]
        simp only [Prod.mk.injEq, and_true, Option.some.injEq]
        omega

theorem varintDecode_varintEncode (n : Nat) (rest : List Nat) :
    varintDecode (varintEncode n ++ rest) = some (n, rest) :=
  varintDecode_varintEncodeAux n n (Or.inr (le_refl n)) rest

theorem length_le_length_encodeDeltas (ds : List Nat) :
    ds.length ≤ (encodeDeltas ds).length := by
  induction ds with
  | nil => simp [encodeDeltas]
  | cons d rest ih =>
      have h1 : 1 ≤ (varintEncode d).length := by
        cases hv : varintEncode d with
        | nil => exact absurd hv (varintEncode_ne_nil d)
        | cons a tl => simp
      simp only [encodeDeltas, List.length_cons, List.length_append]
      omega

theorem decodeDeltasFuel_encodeDeltas (ds : List Nat) :
    ∀ fuel, ds.length ≤ fuel →
      decodeDeltasFuel fuel (encodeDeltas ds) = some ds := by
  induction ds with
  | nil => intro fuel _; cases fuel <;> rfl
  | cons d rest ih =>
      intro fuel hfuel
      cases fuel with
      | zero => simp at hfuel
      | succ f =>
          obtain ⟨b, tl, heq⟩ :
              ∃ b tl, varintEncode d = b :: tl :=
            List.exists_cons_of_ne_nil (varintEncode_ne_nil d)
          have hstream : encodeDeltas (d :: rest) = b :: (tl ++ encodeDeltas rest) := by
            simp [encodeDeltas, heq]
          rw [hstream]
          have hdec : varintDecode (b :: (tl ++ encodeDeltas rest)) =
              some (d, encodeDeltas rest) := by
            have := varintDecode_varintEncode d (encodeDeltas rest)
            rwa [heq, List.cons_append] at this
          simp only [decodeDeltasFuel, hdec]
          rw [ih f (by simpa using hfuel)]

theorem undelta_xorDeltas (l : List Nat) : ∀ p, undelta p (xorDeltas p l) = l := by
  induction l with
  | nil => intro p; rfl
  | cons x rest ih =>
      intro p
      have hx : p ^^^ (p ^^^ x) = x := by
        rw [← Nat.xor_assoc, Nat.xor_self, Nat.zero_xor]
      simp only [xorDeltas, undelta, hx]
      rw [ih x]

theorem DecompressFingerprint_CompressFingerprint (fp : List Nat) (a : Nat)
    (h : a < 256) :
    DecompressFingerprint (CompressFingerprint fp a) = some (fp, a) := by
  have hfuel : (xorDeltas 0 fp).length ≤ (encodeDeltas (xorDeltas 0 fp)).length :=
    length_le_length_encodeDeltas _
  have hdec := decodeDeltasFuel_encodeDeltas (xorDeltas 0 fp) _ hfuel
  simp only [CompressFingerprint, DecompressFingerprint, hdec,
    undelta_xorDeltas fp 0, Nat.mod_eq_of_lt h]

theorem encodeDeltas_lt (ds : List Nat) : ∀ b ∈ encodeDeltas ds, b < 256 := by
  induction ds with
  | nil => simp [encodeDeltas]
  | cons d rest ih =>
      intro b hb
      rcases List.mem_append.mp hb with hb2 | hb2
      · exact varintEncode_lt d b hb2
      · exact ih b hb2

theorem CompressFingerprint_lt (fp : List Nat) (a : Nat) :
    ∀ b ∈ CompressFingerprint fp a, b < 256 := by
  intro b hb
  rcases List.mem_cons.mp hb with rfl | hb2
  · exact Nat.mod_lt _ (by omega)
  · exact encodeDeltas_lt _ b hb2

/-! ## SimHash (modelled from the spec)

The spec: for each of 32 bit positions, count across all subfingerprints
how many have that bit set vs. unset; the output bit is set iff the set
count is strictly greater than the unset count; ties (including the empty
sequence) resolve to unset.
-/

/-- Number of elements of `l` with bit `b` set. -/
def bitCountSet (b : Nat) (l : List Nat) : Nat :=
  l.countP (fun x => x.testBit b)

/-- Number of elements of `l` with bit `b` unset. -/
def bitCountUnset (b : Nat) (l : List Nat) : Nat :=
  l.countP (fun x => !x.testBit b)

/-- Assemble a number from a bit-valued function: bit `b` of
`buildBits f k` is `f b` for every `b < k`. -/
def buildBits (f : Nat → Bool) : Nat → Nat
  | 0 => 0
  | k + 1 => (if f 0 then 1 else 0) + 2 * buildBits (fun i => f (i + 1)) k

/-- Modelled from the spec: `SimHash` — the 32-bit majority-vote digest of
a subfingerprint sequence. -/
def SimHash (l : List Nat) : Nat :=
  buildBits (fun b => decide (bitCountUnset b l < bitCountSet b l)) 32

theorem testBit_buildBits :
    ∀ (k : Nat) (f : Nat → Bool) (b : Nat), b < k →
      (buildBits f k).testBit b = f b := by
  intro k
  induction k with
  | zero => intro f b hb; omega
  | succ n ih =>
      intro f b hb
      cases b with
      | zero =>
          simp only [buildBits, Nat.testBit_zero]
          cases hf : f 0 <;>
            simp [hf, Nat.add_mul_mod_self_left]
      | succ b2 =>
          have hdiv :
              ((if f 0 then 1 else 0) + 2 * buildBits (fun i => f (i + 1)) n) / 2 =
                buildBits (fun i => f (i + 1)) n := by
            cases hf : f 0
            · simp [hf]
            · simp only [hf, if_pos]
              omega
          simp only [buildBits, Nat.testBit_succ, hdiv]
          exact ih (fun i => f (i + 1)) b2 (by omega)

theorem bitCountSet_add_bitCountUnset (b : Nat) (l : List Nat) :
    bitCountSet b l + bitCountUnset b l = l.length := by
  unfold bitCountSet bitCountUnset
  rw [l.length_eq_countP_add_countP (fun x => x.testBit b)]
  simp

theorem SimHash_testBit (l : List Nat) (b : Nat) (h : b < 32) :
    (SimHash l).testBit b = decide (bitCountUnset b l < bitCountSet b l) :=
  testBit_buildBits 32 _ b h

theorem SimHash_nil : SimHash [] = 0 := by decide

/-! ## Fingerprinter session (`ChromaprintContextPrivate` and its API)

The context struct and every API function below are translated from
chromaprint.cpp; only the internal `Fingerprinter` object they delegate to
is modelled from the spec.  A C function that mutates the context returns
the new context value together with its `int` return code; an
out-parameter becomes an `Option` result (`none` = return 0, nothing
written).
-/

/-- Modelled from the spec (§4.1): the internal `Fingerprinter` at its
boundary — the configured sample rate and channel count, and the samples
consumed since the last `Start`. -/
structure FingerprinterState where
  sampleRate : Int
  channels : Int
  samples : List Int
deriving Repr, DecidableEq

/-- Modelled from the spec (§4.1): `Fingerprinter::Start(sampleRate>0,
channels∈\x7b1,2\x7d)` resets and configures the session; it fails with
ConfigurationError on invalid arguments, leaving its own state
untouched. -/
def fingerprinterStart (sample_rate num_channels : Int) :
    Option FingerprinterState :=
  if 0 < sample_rate ∧ (num_channels = 1 ∨ num_channels = 2) then
    some { sampleRate := sample_rate, channels := num_channels, samples := [] }
  else none

/-- Modelled from the spec (§4.1): `Fingerprinter::Consume` appends the
fed samples to the session's stream; it purely appends. -/
def fingerprinterConsume (fps : FingerprinterState) (data : List Int) :
    FingerprinterState :=
  { fps with samples := fps.samples ++ data }

/-- Modelled from the spec: the spectral pipeline (FeatureExtractor and
ClassifierBank) is not part of the available source; per spec §9 any
deterministic map from the consumed samples to a subfingerprint sequence
stands in for it.  The claims below depend only on the session state
discipline, never on the values this map produces. -/
def extractFingerprint (samples : List Int) : List Nat :=
  samples.map (fun s => (s % (4294967296 : Int)).toNat)

/-- Modelled from the spec (§4.1): `Fingerprinter::Finish` flushes and
returns the finalized subfingerprint sequence of the session. -/
def fingerprinterFinish (fps : FingerprinterState) : List Nat :=
  extractFingerprint fps.samples

/-- `ChromaprintContextPrivate` (chromaprint.cpp:18-26). -/
structure ChromaprintContextPrivate where
  finished : Bool
  algorithm : Nat
  fingerprinter : FingerprinterState
  fingerprint : List Nat
deriving Repr, DecidableEq

/-- `chromaprint_new` (chromaprint.cpp:57-61): fresh context for an
algorithm, not finished, with an unconfigured fingerprinter. -/
def chromaprint_new (algorithm : Nat) : ChromaprintContextPrivate :=
  { finished := false, algorithm := algorithm,
    fingerprinter := { sampleRate := 0, channels := 0, samples := [] },
    fingerprint := [] }

/-- `chromaprint_start` (chromaprint.cpp:75-80): sets `finished = false`
first, then starts the fingerprinter; returns 0 when the fingerprinter
rejects the arguments — the cleared `finished` flag is kept either way. -/
def chromaprint_start (ctx : ChromaprintContextPrivate)
    (sample_rate num_channels : Int) : ChromaprintContextPrivate × Nat :=
  let ctx1 := { ctx with finished := false }
  match fingerprinterStart sample_rate num_channels with
  | some fps => ({ ctx1 with fingerprinter := fps }, 1)
  | none => (ctx1, 0)

/-- `chromaprint_feed` (chromaprint.cpp:82-87): consumes the samples and
returns 1 unconditionally; the `finished` flag is not consulted. -/
def chromaprint_feed (ctx : ChromaprintContextPrivate) (data : List Int) :
    ChromaprintContextPrivate × Nat :=
  ({ ctx with fingerprinter := fingerprinterConsume ctx.fingerprinter data }, 1)

/-- `chromaprint_finish` (chromaprint.cpp:89-95): stores the finalized
fingerprint, sets `finished = true`, returns 1 unconditionally. -/
def chromaprint_finish (ctx : ChromaprintContextPrivate) :
    ChromaprintContextPrivate × Nat :=
  ({ ctx with fingerprint := fingerprinterFinish ctx.fingerprinter, finished := true }, 1)

/-- `chromaprint_get_fingerprint` (chromaprint.cpp:97-107): fails (returns
0, writes nothing) unless finished; otherwise compresses the stored
fingerprint with the context's algorithm and base64-encodes it. -/
def chromaprint_get_fingerprint (ctx : ChromaprintContextPrivate) :
    Option (List Nat) :=
  if ctx.finished then
    some (Base64Encode (CompressFingerprint ctx.fingerprint ctx.algorithm))
  else none

/-- `chromaprint_get_raw_fingerprint` (chromaprint.cpp:109-122): fails
(returns 0, writes nothing) unless finished; otherwise returns a copy of
the stored raw fingerprint. -/
def chromaprint_get_raw_fingerprint (ctx : ChromaprintContextPrivate) :
    Option (List Nat) :=
  if ctx.finished then some ctx.fingerprint else none

/-- `chromaprint_get_fingerprint_hash` (chromaprint.cpp:124-132): fails
(returns 0, writes nothing) unless finished; otherwise writes the SimHash
of the stored fingerprint. -/
def chromaprint_get_fingerprint_hash (ctx : ChromaprintContextPrivate) :
    Option Nat :=
  if ctx.finished then some (SimHash ctx.fingerprint) else none

/-- `chromaprint_hash_fingerprint` (chromaprint.cpp:160-167): returns 0
and writes nothing when `fp` is NULL, `size` is negative or `hash` is
NULL; otherwise writes the SimHash of the first `size` elements of `fp`.
`fp = none` models a NULL array pointer (the list holds the pointed-to
elements), `hashNull` models a NULL output pointer. -/
def chromaprint_hash_fingerprint (fp : Option (List Nat)) (size : Int)
    (hashNull : Bool) : Option Nat :=
  if fp = none ∨ size < 0 ∨ hashNull then none
  else some (SimHash ((fp.getD []).take size.toNat))

/-! ## Matcher (`ChromaprintMatcherContextPrivate` and its API)

The context struct and the API functions are translated from
chromaprint.cpp; the internal `FingerprintMatcher` is modelled from the
spec (§4.4): an offset search over the two sequences followed by a
segmentation scan of the aligned Hamming distances.
-/

/-- A matching segment (spec §3): positions into the two sequences, a
duration in index counts, and the raw dissimilarity score (average
per-word Hamming distance over the segment). -/
structure Segment where
  pos1 : Nat
  pos2 : Nat
  duration : Nat
  score : ℚ
deriving Repr, DecidableEq

/-- Hamming distance between two 32-bit words: the number of differing
bits. -/
def hammingDist (a b : Nat) : Nat :=
  (List.range 32).countP (fun i => (a ^^^ b).testBit i)

/-- Modelled from the spec (§4.4): the configured similarity threshold for
the running dissimilarity during segmentation. -/
def matchThreshold : Nat := 10

/-- Length of the leading run of scores at or below the threshold. -/
def runLen (t : Nat) : List Nat → Nat
  | [] => 0
  | s :: rest => if s ≤ t then runLen t rest + 1 else 0

/-- Modelled from the spec (§4.4): the segmentation scan over the aligned
Hamming-distance stream.  `p1` and `p2` are the current positions in the
two sequences; a maximal run of distances at or below the threshold
becomes one segment whose raw score is the run's average distance.  The
spec's trailing-block smoothing and hysteresis are modelled with block
count one, where they degenerate to this simple thresholding. -/
def matchSegmentsAux (t : Nat) : Nat → Nat → Nat → List Nat → List Segment
  | _, _, _, [] => []
  | 0, _, _, _ :: _ => []
  | fuel + 1, p1, p2, s :: rest =>
    if s ≤ t then
      { pos1 := p1, pos2 := p2, duration := runLen t rest + 1,
        score := ((s + (rest.take (runLen t rest)).sum : Nat) : ℚ) /
          ((runLen t rest + 1 : Nat) : ℚ) } ::
        matchSegmentsAux t fuel (p1 + (runLen t rest + 1))
          (p2 + (runLen t rest + 1)) (rest.drop (runLen t rest))
    else matchSegmentsAux t fuel (p1 + 1) (p2 + 1) rest

/-- The segmentation scan, with the fuel started at the stream length
(each step consumes at least one element, so the fuel never runs out). -/
def matchSegments (t p1 p2 : Nat) (l : List Nat) : List Segment :=
  matchSegmentsAux t l.length p1 p2 l

/-- Modelled from the spec (§4.4): the stream of Hamming distances of the
overlapping subfingerprint pairs at relative offset `d` (nonnegative `d`
drops a prefix of the first sequence, negative `d` of the second). -/
def alignedScores (fp0 fp1 : List Nat) (d : Int) : List Nat :=
  if 0 ≤ d then List.zipWith hammingDist (fp0.drop d.toNat) fp1
  else List.zipWith hammingDist fp0 (fp1.drop (-d).toNat)

/-- Modelled from the spec (§4.4): the alignment quality of offset `d`,
estimated as the total Hamming distance over the overlap (lower is
better). -/
def offsetCost (fp0 fp1 : List Nat) (d : Int) : Nat :=
  (alignedScores fp0 fp1 d).sum

/-- All relative offsets at which the two sequences overlap. -/
def offsetCandidates (fp0 fp1 : List Nat) : List Int :=
  (List.range fp0.length).map (fun k => (k : Int)) ++
    (List.range (fp1.length - 1)).map (fun k => -((k : Int) + 1))

/-- Modelled from the spec (§4.4): offset preference — better alignment
quality first, ties broken by the smaller absolute offset. -/
def betterOffset (fp0 fp1 : List Nat) (d best : Int) : Bool :=
  offsetCost fp0 fp1 d < offsetCost fp0 fp1 best ∨
    (offsetCost fp0 fp1 d = offsetCost fp0 fp1 best ∧ |d| < |best|)

/-- Modelled from the spec (§4.4): the offset search, keeping the best
candidate under `betterOffset`. -/
def bestOffset (fp0 fp1 : List Nat) : Int :=
  (offsetCandidates fp0 fp1).foldl
    (fun best d => if betterOffset fp0 fp1 d best then d else best) 0

/-- Modelled from the spec (§4.4): `FingerprintMatcher::Match` — align the
two sequences at the best offset and segment the aligned distance
stream. -/
def matcherMatch (fp0 fp1 : List Nat) : List Segment :=
  if 0 ≤ bestOffset fp0 fp1 then
    matchSegments matchThreshold (bestOffset fp0 fp1).toNat 0
      (alignedScores fp0 fp1 (bestOffset fp0 fp1))
  else
    matchSegments matchThreshold 0 (-(bestOffset fp0 fp1)).toNat
      (alignedScores fp0 fp1 (bestOffset fp0 fp1))

/-- `ChromaprintMatcherContextPrivate` (chromaprint.cpp:28-35); the two
stored fingerprints `fp[0]`, `fp[1]` and the matcher's segment list. -/
structure ChromaprintMatcherContextPrivate where
  algorithm : Nat
  segments : List Segment
  fp0 : List Nat
  fp1 : List Nat
deriving Repr, DecidableEq

/-- The stored fingerprint array `fp[idx]`. -/
def matcherSlot (ctx : ChromaprintMatcherContextPrivate) (idx : Int) : List Nat :=
  if idx = 0 then ctx.fp0 else ctx.fp1

/-- Assignment to the stored fingerprint array `fp[idx]`. -/
def setMatcherSlot (ctx : ChromaprintMatcherContextPrivate) (idx : Int)
    (l : List Nat) : ChromaprintMatcherContextPrivate :=
  if idx = 0 then { ctx with fp0 := l } else { ctx with fp1 := l }

/-- `chromaprint_matcher_new` (chromaprint.cpp:169-172). -/
def chromaprint_matcher_new (version : Nat) : ChromaprintMatcherContextPrivate :=
  { algorithm := version, segments := [], fp0 := [], fp1 := [] }

/-- Modelled from the spec: marshalling of the decompressor's
CorruptDataError at this call site — the caller receives an empty sequence
and the invalid AlgorithmId −1. -/
def decompressToRef (bytes : List Nat) : List Nat × Int :=
  match DecompressFingerprint bytes with
  | some (l, a) => (l, (a : Int))
  | none => ([], -1)

/-- `chromaprint_matcher_set_fingerprint` (chromaprint.cpp:179-188):
rejects an out-of-range slot index; otherwise assigns the decoded sequence
to the slot and only afterwards checks the decoded AlgorithmId, so a
mismatch returns 0 with the slot already overwritten. -/
def chromaprint_matcher_set_fingerprint (ctx : ChromaprintMatcherContextPrivate)
    (idx : Int) (fp : List Nat) : ChromaprintMatcherContextPrivate × Nat :=
  if idx < 0 ∨ 1 < idx then (ctx, 0)
  else if (decompressToRef (Base64Decode fp)).2 ≠ (ctx.algorithm : Int) then
    (setMatcherSlot ctx idx (decompressToRef (Base64Decode fp)).1, 0)
  else
    (setMatcherSlot ctx idx (decompressToRef (Base64Decode fp)).1, 1)

/-- `chromaprint_matcher_set_raw_fingerprint` (chromaprint.cpp:190-197):
rejects an out-of-range slot index; otherwise assigns the raw array to the
slot.  No AlgorithmId check is performed — a raw array carries none. -/
def chromaprint_matcher_set_raw_fingerprint
    (ctx : ChromaprintMatcherContextPrivate) (idx : Int) (fp : List Nat) :
    ChromaprintMatcherContextPrivate × Nat :=
  if idx < 0 ∨ 1 < idx then (ctx, 0)
  else (setMatcherSlot ctx idx fp, 1)

/-- `chromaprint_matcher_run` (chromaprint.cpp:199-206): fails (returns 0,
state unchanged) when either stored fingerprint is empty; otherwise runs
the matcher and stores its segments. -/
def chromaprint_matcher_run (ctx : ChromaprintMatcherContextPrivate) :
    ChromaprintMatcherContextPrivate × Nat :=
  if ctx.fp0 = [] then (ctx, 0)
  else if ctx.fp1 = [] then (ctx, 0)
  else ({ ctx with segments := matcherMatch ctx.fp0 ctx.fp1 }, 1)

/-- `chromaprint_matcher_get_num_segments` (chromaprint.cpp:208-215). -/
def chromaprint_matcher_get_num_segments
    (ctx : ChromaprintMatcherContextPrivate) : Option Nat :=
  some ctx.segments.length

/-- `chromaprint_matcher_get_segment_position` (chromaprint.cpp:217-228):
fails on an out-of-range index; otherwise writes the segment's `pos1`,
`pos2` and `duration`. -/
def chromaprint_matcher_get_segment_position
    (ctx : ChromaprintMatcherContextPrivate) (idx : Int) :
    Option (Nat × Nat × Nat) :=
  if h : 0 ≤ idx ∧ idx.toNat < ctx.segments.length then
    some ((ctx.segments.get ⟨idx.toNat, h.2⟩).pos1,
      (ctx.segments.get ⟨idx.toNat, h.2⟩).pos2,
      (ctx.segments.get ⟨idx.toNat, h.2⟩).duration)
  else none

/-- `chromaprint_matcher_get_segment_score` (chromaprint.cpp:243-252):
fails on an out-of-range index; otherwise writes
`max(0, min(100, round(100 * (1 - score / 32))))`. -/
def chromaprint_matcher_get_segment_score
    (ctx : ChromaprintMatcherContextPrivate) (idx : Int) : Option Int :=
  if h : 0 ≤ idx ∧ idx.toNat < ctx.segments.length then
    some (max 0 (min 100 (round (100 *
      (1 - (ctx.segments.get ⟨idx.toNat, h.2⟩).score / 32)))))
  else none

/-! ## Matcher invariants -/

/-- Segment `a` lies strictly before segment `b` in `pos1`-space: strictly
smaller start, and no overlap. -/
def segBefore (a b : Segment) : Prop :=
  a.pos1 < b.pos1 ∧ a.pos1 + a.duration ≤ b.pos1

instance (a b : Segment) : Decidable (segBefore a b) := instDecidableAnd

theorem runLen_le (t : Nat) (l : List Nat) : runLen t l ≤ l.length := by
  induction l with
  | nil => simp [runLen]
  | cons s rest ih =>
      simp only [runLen, List.length_cons]
      split <;> omega

theorem matchSegmentsAux_mem_bounds (t : Nat) :
    ∀ (fuel p1 p2 : Nat) (l : List Nat) (seg : Segment), l.length ≤ fuel →
      seg ∈ matchSegmentsAux t fuel p1 p2 l →
      p1 ≤ seg.pos1 ∧ 1 ≤ seg.duration ∧ seg.pos1 + seg.duration ≤ p1 + l.length := by
  intro fuel
  induction fuel with
  | zero =>
      intro p1 p2 l seg hlen hseg
      cases l with
      | nil => simp [matchSegmentsAux] at hseg
      | cons s rest => simp at hlen
  | succ f ih =>
      intro p1 p2 l seg hlen hseg
      cases l with
      | nil => simp [matchSegmentsAux] at hseg
      | cons s rest =>
          simp only [matchSegmentsAux] at hseg
          simp only [List.length_cons] at hlen
          have hrle := runLen_le t rest
          by_cases hst : s ≤ t
          · rw [if_pos hst] at hseg
            rcases List.mem_cons.mp hseg with rfl | htail
            · refine ⟨le_refl _, Nat.le_add_left 1 (runLen t rest), ?_⟩
              show p1 + (runLen t rest + 1) ≤ p1 + (s :: rest).length
              simp only [List.length_cons]
              omega
            · have hlen2 : (rest.drop (runLen t rest)).length ≤ f := by
                simp only [List.length_drop]
                omega
              have hb := ih _ _ _ seg hlen2 htail
              have hdrop : (rest.drop (runLen t rest)).length =
                  rest.length - runLen t rest := List.length_drop _ rest
              simp only [List.length_cons]
              rw [hdrop] at hb
              omega
          · rw [if_neg hst] at hseg
            have hb := ih _ _ _ seg (by omega) hseg
            simp only [List.length_cons]
            omega

theorem matchSegments_mem_bounds (t p1 p2 : Nat) (l : List Nat) (seg : Segment)
    (hseg : seg ∈ matchSegments t p1 p2 l) :
    p1 ≤ seg.pos1 ∧ 1 ≤ seg.duration ∧ seg.pos1 + seg.duration ≤ p1 + l.length :=
  matchSegmentsAux_mem_bounds t l.length p1 p2 l seg (le_refl _) hseg

theorem matchSegmentsAux_pairwise (t : Nat) :
    ∀ (fuel p1 p2 : Nat) (l : List Nat), l.length ≤ fuel →
      List.Pairwise segBefore (matchSegmentsAux t fuel p1 p2 l) := by
  intro fuel
  induction fuel with
  | zero =>
      intro p1 p2 l hlen
      cases l with
      | nil => simp [matchSegmentsAux]
      | cons s rest => simp at hlen
  | succ f ih =>
      intro p1 p2 l hlen
      cases l with
      | nil => simp [matchSegmentsAux]
      | cons s rest =>
          simp only [matchSegmentsAux]
          simp only [List.length_cons] at hlen
          have hrle := runLen_le t rest
          by_cases hst : s ≤ t
          · rw [if_pos hst]
            have hlen2 : (rest.drop (runLen t rest)).length ≤ f := by
              simp only [List.length_drop]
              omega
            refine List.Pairwise.cons ?_ (ih _ _ _ hlen2)
            intro b hb
            have hbound := matchSegmentsAux_mem_bounds t f
              (p1 + (runLen t rest + 1)) (p2 + (runLen t rest + 1))
              (rest.drop (runLen t rest)) b hlen2 hb
            refine ⟨?_, ?_⟩
            · show p1 < b.pos1
              omega
            · show p1 + (runLen t rest + 1) ≤ b.pos1
              exact hbound.1
          · rw [if_neg hst]
            exact ih _ _ _ (by omega)

theorem matchSegments_pairwise (t p1 p2 : Nat) (l : List Nat) :
    List.Pairwise segBefore (matchSegments t p1 p2 l) :=
  matchSegmentsAux_pairwise t l.length p1 p2 l (le_refl _)

theorem matcherMatch_pairwise (fp0 fp1 : List Nat) :
    List.Pairwise segBefore (matcherMatch fp0 fp1) := by
  unfold matcherMatch
  split <;> exact matchSegments_pairwise _ _ _ _

/-! ## Concrete sessions used as witnesses -/

/-- A fingerprinter session in the finished state with a nonempty stored
fingerprint, used as a concrete witness input. -/
def finishedCtx : ChromaprintContextPrivate :=
  { finished := true, algorithm := 1,
    fingerprinter := { sampleRate := 44100, channels := 2, samples := [3, 4] },
    fingerprint := [5] }

/-- A matcher session with both fingerprints set, used as a concrete
witness input. -/
def baseMatcherCtx : ChromaprintMatcherContextPrivate :=
  { algorithm := 1, segments := [], fp0 := [3, 3], fp1 := [3, 3] }

/-- The matcher session after a successful run on `baseMatcherCtx`. -/
def runCtx : ChromaprintMatcherContextPrivate :=
  (chromaprint_matcher_run baseMatcherCtx).1

/-! ## The claims -/

/-- C1, counterexample: at algorithm id 256 the compressed form stores the
id modulo 256, so decoding the encoder's output yields algorithm 0, not
256 — the round trip fails for that algorithm id. -/
theorem C1_counterexample :
    chromaprint_decode_fingerprint
        (chromaprint_encode_fingerprint [] 256 false) false ≠
      some ([], 256) := by
  decide

/-- C1 (amended): codec round trip at the standalone entry points, for
every finite subfingerprint sequence (including the empty one), every
algorithm id in the 1-byte representable range `0..255`, and both settings
of the base64 flag: `chromaprint_decode_fingerprint` applied to the output
of `chromaprint_encode_fingerprint` (same base64 flag) succeeds and yields
exactly the sequence and the algorithm id. -/
theorem C1_codec_round_trip (S : List Nat) (A : Nat) (base64 : Bool)
    (hA : A < 256) :
    chromaprint_decode_fingerprint
        (chromaprint_encode_fingerprint S A base64) base64 =
      some (S, A) := by
  have hrt := DecompressFingerprint_CompressFingerprint S A hA
  cases base64 with
  | false =>
      simpa [chromaprint_encode_fingerprint, chromaprint_decode_fingerprint]
        using hrt
  | true =>
      simp only [chromaprint_encode_fingerprint, chromaprint_decode_fingerprint,
        if_pos trivial]
      rw [Base64Decode_Base64Encode _ (CompressFingerprint_lt S A)]
      exact hrt

theorem C1_codec_round_trip_witness :
    (3 : Nat) < 256 ∧
      chromaprint_decode_fingerprint
          (chromaprint_encode_fingerprint [7, 7, 4294967295] 3 true) true =
        some ([7, 7, 4294967295], 3) :=
  ⟨by decide, C1_codec_round_trip [7, 7, 4294967295] 3 true (by decide)⟩

/-- C2, counterexample: on a session in the finished state,
`chromaprint_feed` returns 1 (success), not the failure the claim
requires. -/
theorem C2_counterexample :
    finishedCtx.finished = true ∧
      (chromaprint_feed finishedCtx [1, 2, 3]).2 ≠ 0 := by
  decide

/-- C2 (amended): `chromaprint_feed` never consults the finished flag: on
every session, in particular one in the finished state with no subsequent
start, it accepts the samples (appending them to the fingerprinter's
stream), keeps the finished flag, and returns 1. -/
theorem C2_feed_after_finish (ctx : ChromaprintContextPrivate)
    (data : List Int) (h : ctx.finished = true) :
    (chromaprint_feed ctx data).2 = 1 ∧
      (chromaprint_feed ctx data).1.fingerprinter.samples =
        ctx.fingerprinter.samples ++ data ∧
      (chromaprint_feed ctx data).1.finished = true :=
  ⟨rfl, rfl, h⟩

theorem C2_feed_after_finish_witness :
    (chromaprint_feed finishedCtx [9]).2 = 1 ∧
      (chromaprint_feed finishedCtx [9]).1.fingerprinter.samples =
        finishedCtx.fingerprinter.samples ++ [9] ∧
      (chromaprint_feed finishedCtx [9]).1.finished = true :=
  C2_feed_after_finish finishedCtx [9] (by decide)

/-- C3, counterexample: `chromaprint_start` with an invalid sample rate
fails (returns 0) yet changes the externally visible session state — the
finished flag of a finished session is cleared. -/
theorem C3_counterexample :
    (chromaprint_start finishedCtx 0 1).2 = 0 ∧
      (chromaprint_start finishedCtx 0 1).1 ≠ finishedCtx := by
  decide

/-- C3 (amended): failing calls are not atomic.  A `chromaprint_start`
with invalid arguments returns 0 but clears the finished flag (everything
else kept); a `chromaprint_matcher_set_fingerprint` on a valid slot whose
input decodes to a mismatched algorithm id returns 0 but has already
overwritten the targeted slot with the decoded sequence. -/
theorem C3_failure_atomicity (ctx : ChromaprintContextPrivate)
    (sr ch : Int) (hbad : ¬ (0 < sr ∧ (ch = 1 ∨ ch = 2)))
    (mctx : ChromaprintMatcherContextPrivate) (idx : Int) (fp : List Nat)
    (hidx : ¬ (idx < 0 ∨ 1 < idx))
    (hmis : (decompressToRef (Base64Decode fp)).2 ≠ (mctx.algorithm : Int)) :
    chromaprint_start ctx sr ch = ({ ctx with finished := false }, 0) ∧
      chromaprint_matcher_set_fingerprint mctx idx fp =
        (setMatcherSlot mctx idx (decompressToRef (Base64Decode fp)).1, 0) := by
  constructor
  · simp [chromaprint_start, fingerprinterStart, hbad]
  · simp [chromaprint_matcher_set_fingerprint, hidx, hmis]

theorem C3_failure_atomicity_witness :
    chromaprint_start finishedCtx 0 1 =
        ({ finishedCtx with finished := false }, 0) ∧
      chromaprint_matcher_set_fingerprint (chromaprint_matcher_new 1) 0
          (chromaprint_encode_fingerprint [5] 0 true) =
        (setMatcherSlot (chromaprint_matcher_new 1) 0
          (decompressToRef (Base64Decode
            (chromaprint_encode_fingerprint [5] 0 true))).1, 0) :=
  C3_failure_atomicity finishedCtx 0 1 (by decide) (chromaprint_matcher_new 1)
    0 (chromaprint_encode_fingerprint [5] 0 true) (by decide) (by decide)

/-- C4: on every session not in the finished state the three accessors
fail (return 0 and write no output); after a successful
`chromaprint_finish` each of them succeeds. -/
theorem C4_getter_state_discipline (ctx : ChromaprintContextPrivate) :
    (ctx.finished = false →
      chromaprint_get_fingerprint ctx = none ∧
        chromaprint_get_raw_fingerprint ctx = none ∧
        chromaprint_get_fingerprint_hash ctx = none) ∧
      ((chromaprint_finish ctx).2 = 1 ∧
        (chromaprint_get_fingerprint (chromaprint_finish ctx).1).isSome = true ∧
        (chromaprint_get_raw_fingerprint (chromaprint_finish ctx).1).isSome = true ∧
        (chromaprint_get_fingerprint_hash (chromaprint_finish ctx).1).isSome = true) := by
  constructor
  · intro h
    refine ⟨?_, ?_, ?_⟩ <;>
      simp [chromaprint_get_fingerprint, chromaprint_get_raw_fingerprint,
        chromaprint_get_fingerprint_hash, h]
  · refine ⟨rfl, ?_, ?_, ?_⟩ <;>
      simp [chromaprint_finish, chromaprint_get_fingerprint,
        chromaprint_get_raw_fingerprint, chromaprint_get_fingerprint_hash]

theorem C4_getter_state_discipline_witness :
    chromaprint_get_fingerprint (chromaprint_new 2) = none ∧
      (chromaprint_get_fingerprint (chromaprint_finish (chromaprint_new 2)).1).isSome = true :=
  ⟨((C4_getter_state_discipline (chromaprint_new 2)).1 rfl).1,
    (C4_getter_state_discipline (chromaprint_new 2)).2.2.1⟩

/-- C5, counterexample: a fingerprint produced under algorithm 0 (its
compressed form decodes to algorithm 0, different from the session's
algorithm 1) is accepted by `chromaprint_matcher_set_raw_fingerprint` when
supplied as a raw subfingerprint array: the call returns 1 and stores the
sequence, against the claimed hard failure on every supply form. -/
theorem C5_counterexample :
    chromaprint_decode_fingerprint
        (chromaprint_encode_fingerprint [5] 0 true) true = some ([5], 0) ∧
      (0 : Nat) ≠ (chromaprint_matcher_new 1).algorithm ∧
      (chromaprint_matcher_set_raw_fingerprint
        (chromaprint_matcher_new 1) 0 [5]).2 = 1 ∧
      (chromaprint_matcher_set_raw_fingerprint
        (chromaprint_matcher_new 1) 0 [5]).1.fp0 = [5] := by
  decide

/-- C5 (amended): AlgorithmId discipline holds only on the compressed
path: there a decoded AlgorithmId differing from the session's is a hard
failure (returns 0).  The raw path carries no AlgorithmId and performs no
check: an in-range slot write always succeeds, whatever algorithm produced
the array. -/
theorem C5_algorithm_discipline (ctx : ChromaprintMatcherContextPrivate)
    (idx : Int) (hidx : ¬ (idx < 0 ∨ 1 < idx)) (fp raw : List Nat)
    (hmis : (decompressToRef (Base64Decode fp)).2 ≠ (ctx.algorithm : Int)) :
    (chromaprint_matcher_set_fingerprint ctx idx fp).2 = 0 ∧
      (chromaprint_matcher_set_raw_fingerprint ctx idx raw).2 = 1 := by
  constructor
  · simp [chromaprint_matcher_set_fingerprint, hidx, hmis]
  · simp [chromaprint_matcher_set_raw_fingerprint, hidx]

theorem C5_algorithm_discipline_witness :
    (chromaprint_matcher_set_fingerprint (chromaprint_matcher_new 1) 0
        (chromaprint_encode_fingerprint [5] 0 true)).2 = 0 ∧
      (chromaprint_matcher_set_raw_fingerprint
        (chromaprint_matcher_new 1) 0 [5]).2 = 1 :=
  C5_algorithm_discipline (chromaprint_matcher_new 1) 0 (by decide)
    (chromaprint_encode_fingerprint [5] 0 true) [5] (by decide)

/-- C6: when either stored fingerprint sequence is empty,
`chromaprint_matcher_run` fails (returns 0) and leaves the session exactly
as it was — in particular the failing run produces no segments. -/
theorem C6_run_empty_fails (ctx : ChromaprintMatcherContextPrivate)
    (h : ctx.fp0 = [] ∨ ctx.fp1 = []) :
    chromaprint_matcher_run ctx = (ctx, 0) := by
  unfold chromaprint_matcher_run
  rcases h with h | h
  · rw [if_pos h]
  · by_cases h0 : ctx.fp0 = []
    · rw [if_pos h0]
    · rw [if_neg h0, if_pos h]

theorem C6_run_empty_fails_witness :
    chromaprint_matcher_run (chromaprint_matcher_new 0) =
      (chromaprint_matcher_new 0, 0) :=
  C6_run_empty_fails (chromaprint_matcher_new 0) (Or.inl rfl)

/-- C7: for every in-range segment index the returned normalized score is
`max(0, min(100, round(100 * (1 - rawScore / 32))))` for that segment's
raw score, and consequently every returned score lies in `[0, 100]`. -/
theorem C7_segment_score (ctx : ChromaprintMatcherContextPrivate) (idx : Int)
    (h0 : 0 ≤ idx) (h1 : idx.toNat < ctx.segments.length) :
    chromaprint_matcher_get_segment_score ctx idx =
      some (max 0 (min 100 (round (100 * (1 -
        (ctx.segments.getD idx.toNat ⟨0, 0, 0, 0⟩).score / 32))))) ∧
      ∀ v : Int, chromaprint_matcher_get_segment_score ctx idx = some v →
        0 ≤ v ∧ v ≤ 100 := by
  constructor
  · unfold chromaprint_matcher_get_segment_score
    rw [dif_pos ⟨h0, h1⟩]
    rw [List.getD_eq_getElem ctx.segments _ h1]
    rfl
  · intro v hv
    unfold chromaprint_matcher_get_segment_score at hv
    rw [dif_pos ⟨h0, h1⟩] at hv
    injection hv with hv2
    rw [← hv2]
    constructor
    · exact le_max_left 0 _
    · exact max_le (by norm_num) (min_le_left 100 _)

theorem C7_segment_score_witness :
    chromaprint_matcher_get_segment_score runCtx 0 =
      some (max 0 (min 100 (round (100 * (1 -
        (runCtx.segments.getD (0 : Int).toNat ⟨0, 0, 0, 0⟩).score / 32))))) ∧
      ∀ v : Int, chromaprint_matcher_get_segment_score runCtx 0 = some v →
        0 ≤ v ∧ v ≤ 100 :=
  C7_segment_score runCtx 0 (by decide) (by decide)

/-- C8: the segment list produced by a successful matcher run is strictly
increasing in `pos1` and pairwise non-overlapping in `pos1`-space. -/
theorem C8_segments_sorted (ctx ctx' : ChromaprintMatcherContextPrivate)
    (r : Nat) (h : chromaprint_matcher_run ctx = (ctx', r)) (hr : r = 1) :
    List.Pairwise segBefore ctx'.segments := by
  unfold chromaprint_matcher_run at h
  by_cases h0 : ctx.fp0 = []
  · rw [if_pos h0, Prod.mk.injEq] at h
    obtain ⟨-, h2⟩ := h
    omega
  · rw [if_neg h0] at h
    by_cases h1 : ctx.fp1 = []
    · rw [if_pos h1, Prod.mk.injEq] at h
      obtain ⟨-, h2⟩ := h
      omega
    · rw [if_neg h1, Prod.mk.injEq] at h
      obtain ⟨hctx, -⟩ := h
      rw [← hctx]
      exact matcherMatch_pairwise ctx.fp0 ctx.fp1

theorem C8_segments_sorted_witness :
    List.Pairwise segBefore runCtx.segments :=
  C8_segments_sorted baseMatcherCtx runCtx
    (chromaprint_matcher_run baseMatcherCtx).2 rfl (by decide)

/-- C9: for every subfingerprint sequence and bit position `b < 32`, bit
`b` of the similarity digest is set iff strictly more elements have bit
`b` set than unset; a tie gives an unset bit, and the digest of the empty
sequence is 0. -/
theorem C9_simhash_majority (l : List Nat) (b : Nat) (hb : b < 32) :
    ((SimHash l).testBit b = true ↔ bitCountUnset b l < bitCountSet b l) ∧
      (bitCountSet b l = bitCountUnset b l → (SimHash l).testBit b = false) ∧
      SimHash [] = 0 := by
  have h := SimHash_testBit l b hb
  refine ⟨?_, ?_, SimHash_nil⟩
  · rw [h]
    simp
  · intro heq
    rw [h]
    simp only [decide_eq_false_iff_not, not_lt]
    omega

theorem C9_simhash_majority_witness :
    ((SimHash [1, 1, 2]).testBit 0 = true ↔
        bitCountUnset 0 [1, 1, 2] < bitCountSet 0 [1, 1, 2]) ∧
      (bitCountSet 0 [1, 1, 2] = bitCountUnset 0 [1, 1, 2] →
        (SimHash [1, 1, 2]).testBit 0 = false) ∧
      SimHash [] = 0 :=
  C9_simhash_majority [1, 1, 2] 0 (by decide)

/-- C10: `chromaprint_hash_fingerprint` fails (returns 0, writes nothing)
exactly when the array is NULL, the size negative, or the output pointer
NULL; for every non-NULL array, nonnegative size and non-NULL output
pointer it succeeds and writes the SimHash of the first `size`
elements. -/
theorem C10_hash_fingerprint (fp : Option (List Nat)) (size : Int)
    (hashNull : Bool) :
    (chromaprint_hash_fingerprint fp size hashNull = none ↔
      fp = none ∨ size < 0 ∨ hashNull = true) ∧
      ∀ l, fp = some l → 0 ≤ size → hashNull = false →
        chromaprint_hash_fingerprint fp size hashNull =
          some (SimHash (l.take size.toNat)) := by
  constructor
  · by_cases hc : fp = none ∨ size < 0 ∨ hashNull = true
    · unfold chromaprint_hash_fingerprint
      rw [if_pos hc]
      exact iff_of_true rfl hc
    · unfold chromaprint_hash_fingerprint
      rw [if_neg hc]
      exact iff_of_false (by simp) hc
  · intro l hl hsz hnull
    subst hl
    subst hnull
    unfold chromaprint_hash_fingerprint
    have hcond : ¬ ((some l : Option (List Nat)) = none ∨ size < 0 ∨
        (false : Bool) = true) := by
      simp
      omega
    rw [if_neg hcond]
    rfl

theorem C10_hash_fingerprint_witness :
    chromaprint_hash_fingerprint (some [1, 2, 3]) 2 false =
      some (SimHash ([1, 2, 3].take (2 : Int).toNat)) :=
  (C10_hash_fingerprint (some [1, 2, 3]) 2 false).2 [1, 2, 3] rfl
    (by decide) rfl

end chromaprint
